import Mathlib

/-!
Shallow embedding of the download script `app.py` of the
file-download-utility repository: the per-task candidate fallback loop
(method dispatch, HTTP 200 test, streamed write with caught write
failures, the for/else "no iteration succeeded" log) and the conditional
zip-extraction pipeline (is_zipfile guard, member extraction, final
destination existence warning, copy), together with the module-level
orchestration across tasks.

The network and the filesystem are modelled as oracles: each candidate
attempt is given an HTTP status and a write outcome, and the extraction
pipeline is given the results of `zipfile.is_zipfile`, `Path.exists`,
the member extraction and the `shutil.copy2` call.  The observable
behaviour is an event trace of log records and filesystem operations.
`download_destination` and the loop variable `v` are module-level names
in the source, assigned only in some branches; they are modelled as
`Option`-valued state threaded through the whole run, and reading them
while unassigned is a `NameError` that aborts the run, as in Python.
-/

namespace FileDownload

/-- One download-action dictionary of `config.DOWNLOAD_ACTIONS`
(source comment lines 12-26 of app.py). -/
structure Candidate where
  url : String
  method : String
  metadata : List (String × String)
  filename : String
  extract_zip : Bool
  zip_member_to_extract : String
  zip_member_final_destination : String
deriving DecidableEq, Repr

/-- Network oracle for one candidate attempt: whether the
`login_session.post`/`login_session.get` call itself raises (app.py lines
124-134 are outside any try, so a `RequestException` there is uncaught
and run-fatal); otherwise the HTTP status code of the response and
whether the streamed write of the body to disk succeeds
(`shutil.copyfileobj` raising `ConnectionError`/`IOError` is
`writeOk = false`, caught at lines 148-149). -/
structure AttemptEnv where
  status : Nat
  writeOk : Bool
  raises : Bool
deriving DecidableEq, Repr

/-- Log records emitted by the script, one constructor per `logger.*` call
site in the task loop and extraction block of app.py. -/
inductive LogEvent where
  | attemptInfo (task method : String)
  | fullInstructions (v : Candidate)
  | downloadStarted (task : String)
  | downloadCompleted (task : String)
  | downloadWriteFailed (task : String)
  | downloadNotStarted (task method : String)
  | noIterationSucceeded (task : String)
  | extractAttempt (member task : String)
  | extractSuccess (member task : String)
  | extractFailed (member task : String)
  | finalDestExistsWarning (dest member : String)
  | finalDestNotExists (dest member : String)
  | copySuccess (member dest : String)
  | copyFailed (member dest : String)
  | notValidZip (task : String)
deriving DecidableEq, Repr

/-- Filesystem operations performed by the script: the streamed write of a
download, a zip member extraction, and the `shutil.copy2` call. -/
inductive FsOp where
  | writeFile (path : String)
  | zipExtract (archive member destDir : String)
  | copyFile (src dst : String)
deriving DecidableEq, Repr

/-- One observable event: a log record or a filesystem operation. -/
inductive Ev where
  | log (e : LogEvent)
  | fs (op : FsOp)
deriving DecidableEq, Repr

/-- Uncaught exceptions that abort the run: the `raise ValueError` for an
unsupported method (app.py line 138), a Python `NameError` from reading a
module-level name (`v` or `download_destination`) never assigned, a
`RequestException` raised by the request call itself (lines 124-134,
outside any try), and the `KeyError` raised by `zfp.extract` when the
named member is absent from the archive (line 169; the except clause at
line 177 catches only `BadZipFile` and `IOError`). -/
inductive RunError where
  | valueErrorUnsupportedMethod (method : String)
  | nameErrorUnbound (var : String)
  | requestExceptionUncaught (url : String)
  | keyErrorMissingMember (member : String)
deriving DecidableEq, Repr

/-- Per-task resolution outcome of the fallback loop. -/
inductive DownloadOutcome where
  | success (localPath : String)
  | failure
deriving DecidableEq, Repr

/-- Module-level mutable names of the script that outlive one loop
iteration: `download_destination` (assigned only in the HTTP-200 branch,
line 141) and the loop variable `v` (retains its value after the loop). -/
structure LoopState where
  dl : Option String
  lastV : Option Candidate
deriving DecidableEq, Repr

/-- State at script start: neither `download_destination` nor `v` is bound. -/
def initState : LoopState := ⟨none, none⟩

/-- Decidable equality of `Except` results, so that concrete runs can be
checked by `decide`. -/
instance exceptDecEq {ε α : Type} [DecidableEq ε] [DecidableEq α] :
    DecidableEq (Except ε α)
  | .error a, .error b =>
    if h : a = b then isTrue (h ▸ rfl) else isFalse fun hc => h (Except.error.inj hc)
  | .error _, .ok _ => isFalse fun hc => Except.noConfusion hc
  | .ok _, .error _ => isFalse fun hc => Except.noConfusion hc
  | .ok a, .ok b =>
    if h : a = b then isTrue (h ▸ rfl) else isFalse fun hc => h (Except.ok.inj hc)

/-- Outcome of the `zfp.extract` call (app.py line 169): success, an
exception caught by the except clause at line 177 (`BadZipFile` or
`IOError`), or the uncaught `KeyError` raised when the named member is
absent from the archive. -/
inductive ZipExtractResult where
  | ok
  | caughtError
  | keyError
deriving DecidableEq, Repr

/-- Filesystem oracle for the extraction block: result of
`zipfile.is_zipfile` on a path, of `Path.exists` on a path, the outcome
of the member extraction, and whether the copy raises a caught
exception. -/
structure ExtractEnv where
  is_zipfile : String → Bool
  pathExists : String → Bool
  extractResult : ZipExtractResult
  copyOk : Bool

/-- Python `str.upper` (ASCII case mapping), over the character list. -/
def pyUpper (s : String) : String := ⟨s.data.map Char.toUpper⟩

/-- Python `str.strip` with no argument: remove leading and trailing
whitespace. -/
def pyStrip (s : String) : String :=
  ⟨((s.data.dropWhile Char.isWhitespace).reverse.dropWhile Char.isWhitespace).reverse⟩

/-- Python `s.split('.')[0]`: the prefix of `s` before the first '.'
(`s` itself when it has no '.'). -/
def stemFirstDot (s : String) : String := ⟨s.data.takeWhile (fun c => c ≠ '.')⟩

/-- The method dispatch test of app.py lines 123-129:
`v['method'].upper().strip()` equal to `'POST'` or `'GET'`. -/
def methodOk (v : Candidate) : Bool :=
  pyStrip (pyUpper v.method) == "POST" || pyStrip (pyUpper v.method) == "GET"

/-- Events of a single candidate attempt with a supported method:
the two leading log lines (app.py lines 118-122), then either the
HTTP-200 branch (start log, streamed write, completion or caught write
failure) or the non-200 warning (lines 152-155). -/
def attemptEvs (k ddir : String) (v : Candidate) (e : AttemptEnv) : List Ev :=
  [Ev.log (.attemptInfo k v.method), Ev.log (.fullInstructions v)] ++
    (if e.status = 200 then
      [Ev.log (.downloadStarted k), Ev.fs (.writeFile (ddir ++ "/" ++ v.filename))] ++
        (if e.writeOk then [Ev.log (.downloadCompleted k)]
         else [Ev.log (.downloadWriteFailed k)])
     else [Ev.log (.downloadNotStarted k v.method)])

/-- The inner candidate loop of app.py lines 117-155 for task `k`.
`env i` is the network oracle for the attempt at position `i`.  Returns
the updated module-level state, the event trace, and `some dest` when the
loop exited via `break` (successful download to `dest`), `none` when the
candidate list was exhausted.  An unsupported method raises `ValueError`
(line 138) and a raising request call propagates a `RequestException`
(lines 124-134 are outside any try), each aborting everything. -/
def candidateLoop (k ddir : String) (env : Nat → AttemptEnv) :
    List Candidate → Nat → LoopState → Except RunError (LoopState × List Ev × Option String)
  | [], _, st => .ok (st, [], none)
  | v :: rest, i, st =>
    let stv : LoopState := { dl := st.dl, lastV := some v }
    if methodOk v then
      let e := env i
      if e.raises then
        .error (.requestExceptionUncaught v.url)
      else
      let evs := attemptEvs k ddir v e
      if e.status = 200 then
        let dest := ddir ++ "/" ++ v.filename
        let stw : LoopState := { dl := some dest, lastV := some v }
        if e.writeOk then
          .ok (stw, evs, some dest)
        else
          match candidateLoop k ddir env rest (i + 1) stw with
          | .error err => .error err
          | .ok (st2, tl, r) => .ok (st2, evs ++ tl, r)
      else
        match candidateLoop k ddir env rest (i + 1) stv with
        | .error err => .error err
        | .ok (st2, tl, r) => .ok (st2, evs ++ tl, r)
    else
      .error (.valueErrorUnsupportedMethod v.method)

/-- The fallback resolution for one task: the candidate loop together with
its for/else clause (app.py lines 156-157), which logs the distinct
"no iteration succeeded" error exactly when the loop did not `break`. -/
def resolve (k ddir : String) (env : Nat → AttemptEnv) (st : LoopState)
    (cs : List Candidate) : Except RunError (DownloadOutcome × LoopState × List Ev) :=
  match candidateLoop k ddir env cs 0 st with
  | .error e => .error e
  | .ok (st2, evs, some dest) => .ok (.success dest, st2, evs)
  | .ok (st2, evs, none) =>
    .ok (.failure, st2, evs ++ [Ev.log (.noIterationSucceeded k)])

/-- The extraction directory of app.py lines 164-166:
`download_directory / v['filename'].split('.')[0]`, i.e. the download
directory joined with the filename truncated at the first '.'. -/
def zipContentsDir (ddir filename : String) : String :=
  ddir ++ "/" ++ stemFirstDot filename

/-- The zip-extraction block of app.py lines 159-208 for the candidate `v`
left in the loop variable, with `dl` the current value of
`download_destination`.  Python short-circuit: when `v.extract_zip` is
false, `download_destination` is never read.  When it is true and
`download_destination` was never assigned, reading it raises `NameError`.
Otherwise: if `is_zipfile` holds, extract the member into
`zipContentsDir` — `BadZipFile`/`IOError` are caught and logged, but a
`KeyError` for a member absent from the archive is uncaught and aborts
the run — then warn or note on the final destination's existence, and
unconditionally attempt `shutil.copy2` (copy failures caught and
logged); if `is_zipfile` fails, log the "not a valid zip file" error
(lines 207-208). -/
def extractionStep (k ddir : String) (x : ExtractEnv) (v : Candidate)
    (dl : Option String) : Except RunError (List Ev) :=
  if v.extract_zip then
    match dl with
    | none => .error (.nameErrorUnbound "download_destination")
    | some d =>
      if x.is_zipfile d then
        let cdir := zipContentsDir ddir v.filename
        let fd := v.zip_member_final_destination
        let existEvs : List Ev :=
          if x.pathExists fd then [Ev.log (.finalDestExistsWarning fd v.zip_member_to_extract)]
          else [Ev.log (.finalDestNotExists fd v.zip_member_to_extract)]
        let copyEvs : List Ev :=
          [Ev.fs (.copyFile (cdir ++ "/" ++ v.zip_member_to_extract) fd)] ++
            (if x.copyOk then [Ev.log (.copySuccess v.zip_member_to_extract fd)]
             else [Ev.log (.copyFailed v.zip_member_to_extract fd)])
        match x.extractResult with
        | .keyError => .error (.keyErrorMissingMember v.zip_member_to_extract)
        | .ok =>
          .ok (([Ev.log (.extractAttempt v.zip_member_to_extract k),
                 Ev.fs (.zipExtract d v.zip_member_to_extract cdir)] ++
                [Ev.log (.extractSuccess v.zip_member_to_extract k)]) ++
               existEvs ++ copyEvs)
        | .caughtError =>
          .ok (([Ev.log (.extractAttempt v.zip_member_to_extract k),
                 Ev.fs (.zipExtract d v.zip_member_to_extract cdir)] ++
                [Ev.log (.extractFailed v.zip_member_to_extract k)]) ++
               existEvs ++ copyEvs)
      else .ok [Ev.log (.notValidZip k)]
  else .ok []

/-- Processing of one task of the outer loop (app.py lines 114-208):
the fallback resolution followed by the extraction block, which reads the
loop variable `v` (NameError if never assigned in the run) and
`download_destination`. -/
def runTask (k ddir : String) (env : Nat → AttemptEnv) (x : ExtractEnv)
    (st : LoopState) (cs : List Candidate) :
    Except RunError (DownloadOutcome × LoopState × List Ev) :=
  match resolve k ddir env st cs with
  | .error e => .error e
  | .ok (out, st2, evs) =>
    match st2.lastV with
    | none => .error (.nameErrorUnbound "v")
    | some v =>
      match extractionStep k ddir x v st2.dl with
      | .error e => .error e
      | .ok evs2 => .ok (out, st2, evs ++ evs2)

/-- A value of `config.DOWNLOAD_ACTIONS`: either a bare dictionary or a
list of dictionaries. -/
inductive TaskValue where
  | single (c : Candidate)
  | list (cs : List Candidate)
deriving DecidableEq

/-- The normalization of app.py lines 115-116:
`if not isinstance(v_list, list): v_list = [v_list]`. -/
def normalizeTaskValue : TaskValue → List Candidate
  | .single c => [c]
  | .list cs => cs

/-- One task of the outer loop, starting from its configured value. -/
def runTaskValue (k ddir : String) (env : Nat → AttemptEnv) (x : ExtractEnv)
    (st : LoopState) (tv : TaskValue) :
    Except RunError (DownloadOutcome × LoopState × List Ev) :=
  runTask k ddir env x st (normalizeTaskValue tv)

/-- The whole outer loop over `config.DOWNLOAD_ACTIONS` (app.py line 114),
threading the module-level state through the tasks in order. -/
def runAll (ddir : String) (env : String → Nat → AttemptEnv) (x : String → ExtractEnv) :
    List (String × TaskValue) → LoopState → Except RunError (LoopState × List Ev)
  | [], st => .ok (st, [])
  | (k, tv) :: rest, st =>
    match runTaskValue k ddir (env k) (x k) st tv with
    | .error e => .error e
    | .ok (_, st2, evs) =>
      match runAll ddir env x rest st2 with
      | .error e => .error e
      | .ok (st3, evs2) => .ok (st3, evs ++ evs2)

/-- A candidate attempt succeeds when the request returns (does not
raise), the status is exactly 200, and the streamed write completes
(this is the condition under which line 147's `break` is reached). -/
def attemptSucceeds (e : AttemptEnv) : Bool :=
  !e.raises && (e.status == 200 && e.writeOk)

/-- The concatenated event trace of the attempts on the candidates `cs`,
the first one at oracle position `i`. -/
def attemptsTrace (k ddir : String) (env : Nat → AttemptEnv)
    (cs : List Candidate) (i : Nat) : List Ev :=
  (List.zipWith (fun v m => attemptEvs k ddir v (env m)) cs (List.range' i cs.length)).flatten

/-- Events marking that the extraction pipeline was entered for a task:
either the extraction-attempt log (app.py line 160) or the
"not a valid zip file" error (line 208). -/
def isExtractionEv : Ev → Bool
  | .log (.extractAttempt _ _) => true
  | .log (.notValidZip _) => true
  | _ => false

/-- Whether a trace shows the extraction pipeline was entered. -/
def extractionEntered (evs : List Ev) : Bool :=
  evs.any isExtractionEv

/-- A GET candidate with filename `a.zip` and no extraction. -/
def cexA : Candidate :=
  { url := "u1", method := "get", metadata := [("q", "1")], filename := "a.zip",
    extract_zip := false, zip_member_to_extract := "",
    zip_member_final_destination := "" }

/-- A GET candidate with filename `b.zip` and no extraction. -/
def cexB : Candidate :=
  { url := "u2", method := "get", metadata := [("q", "2")], filename := "b.zip",
    extract_zip := false, zip_member_to_extract := "",
    zip_member_final_destination := "" }

/-- A GET candidate flagged for extraction. -/
def cexC : Candidate :=
  { url := "u3", method := "get", metadata := [], filename := "c.zip",
    extract_zip := true, zip_member_to_extract := "m.txt",
    zip_member_final_destination := "final/m.txt" }

/-- A candidate whose method `put` is unsupported. -/
def cexP : Candidate :=
  { url := "u4", method := "put", metadata := [], filename := "p.bin",
    extract_zip := false, zip_member_to_extract := "",
    zip_member_final_destination := "" }

/-- Network oracle: first attempt returns 200 but its streamed write
fails; every later attempt returns 200 with a successful write. -/
def envFirstWriteFails : Nat → AttemptEnv :=
  fun i => if i = 0 then ⟨200, false, false⟩ else ⟨200, true, false⟩

/-- Network oracle: every attempt returns 200 and writes successfully. -/
def envAllOk : Nat → AttemptEnv := fun _ => ⟨200, true, false⟩

/-- Network oracle: every attempt returns HTTP 500. -/
def envAll500 : Nat → AttemptEnv := fun _ => ⟨500, true, false⟩

/-- Filesystem oracle under which no path is a zip file, no path exists,
and extraction and copying would succeed. -/
def xenvNone : ExtractEnv :=
  { is_zipfile := fun _ => false, pathExists := fun _ => false,
    extractResult := .ok, copyOk := true }

/-- Filesystem oracle under which every path is a zip file and already
exists, and extraction and copying succeed. -/
def xenvAll : ExtractEnv :=
  { is_zipfile := fun _ => true, pathExists := fun _ => true,
    extractResult := .ok, copyOk := true }

theorem attemptsTrace_nil (k ddir : String) (env : Nat → AttemptEnv) (i : Nat) :
    attemptsTrace k ddir env [] i = [] := rfl

theorem attemptsTrace_cons (k ddir : String) (env : Nat → AttemptEnv)
    (v : Candidate) (rest : List Candidate) (i : Nat) :
    attemptsTrace k ddir env (v :: rest) i =
      attemptEvs k ddir v (env i) ++ attemptsTrace k ddir env rest (i + 1) := by
  simp [attemptsTrace, List.range'_succ]

theorem extractionEntered_append (a b : List Ev) :
    extractionEntered (a ++ b) = (extractionEntered a || extractionEntered b) := by
  simp [extractionEntered]

theorem attemptEvs_no_extraction (k ddir : String) (v : Candidate) (e : AttemptEnv) :
    extractionEntered (attemptEvs k ddir v e) = false := by
  simp only [extractionEntered, attemptEvs]
  split_ifs <;> simp [isExtractionEv]

theorem attemptEvs_noIter (k ddir : String) (v : Candidate) (e : AttemptEnv)
    (k2 : String) : Ev.log (.noIterationSucceeded k2) ∉ attemptEvs k ddir v e := by
  simp only [attemptEvs]
  split_ifs <;> simp

/-- The candidate loop when the attempt at relative position `j` is the
first full success (HTTP 200 and write completed) and no earlier request
raises: the loop breaks there, the final state binds
`download_destination` and `v` to that candidate, and the trace is
exactly the attempts on the first `j + 1` candidates. -/
theorem candidateLoop_first_success (k ddir : String) (env : Nat → AttemptEnv) :
    ∀ (cs : List Candidate) (j i : Nat) (st : LoopState) (hj : j < cs.length),
      (∀ c ∈ cs, methodOk c = true) →
      (∀ m, m < j → (env (i + m)).raises = false) →
      (∀ m, m < j → attemptSucceeds (env (i + m)) = false) →
      attemptSucceeds (env (i + j)) = true →
      candidateLoop k ddir env cs i st =
        .ok (⟨some (ddir ++ "/" ++ (cs.get ⟨j, hj⟩).filename), some (cs.get ⟨j, hj⟩)⟩,
             attemptsTrace k ddir env (cs.take (j + 1)) i,
             some (ddir ++ "/" ++ (cs.get ⟨j, hj⟩).filename))
  | [], j, i, st, hj, _, _, _, _ => absurd hj (by simp)
  | v :: rest, 0, i, st, hj, hm, _, _, hsucc => by
    have hmv : methodOk v = true := hm v (List.mem_cons_self v rest)
    simp only [Nat.add_zero] at hsucc
    simp only [attemptSucceeds, Bool.and_eq_true, Bool.not_eq_true', beq_iff_eq] at hsucc
    simp [candidateLoop, hmv, hsucc.1, hsucc.2.1, hsucc.2.2, attemptsTrace_cons,
      attemptsTrace_nil]
  | v :: rest, j + 1, i, st, hj, hm, hret, hfail, hsucc => by
    have hmv : methodOk v = true := hm v (List.mem_cons_self v rest)
    have hj2 : j < rest.length := Nat.lt_of_succ_lt_succ hj
    have hm2 : ∀ c ∈ rest, methodOk c = true :=
      fun c hc => hm c (List.mem_cons_of_mem v hc)
    have hret2 : ∀ m, m < j → (env (i + 1 + m)).raises = false := by
      intro m hmlt
      have h := hret (m + 1) (Nat.succ_lt_succ hmlt)
      have harith : i + (m + 1) = i + 1 + m := by omega
      rwa [harith] at h
    have hfail2 : ∀ m, m < j → attemptSucceeds (env (i + 1 + m)) = false := by
      intro m hmlt
      have h := hfail (m + 1) (Nat.succ_lt_succ hmlt)
      have harith : i + (m + 1) = i + 1 + m := by omega
      rwa [harith] at h
    have hsucc2 : attemptSucceeds (env (i + 1 + j)) = true := by
      have harith : i + (j + 1) = i + 1 + j := by omega
      rwa [harith] at hsucc
    have hret0 : (env i).raises = false := by
      have h := hret 0 (Nat.succ_pos j)
      simpa using h
    have hfail0 : attemptSucceeds (env i) = false := by
      have h := hfail 0 (Nat.succ_pos j)
      simpa using h
    by_cases hst : (env i).status = 200
    · have hwk : (env i).writeOk = false := by
        simp [attemptSucceeds, hret0, hst] at hfail0
        exact hfail0
      have IH := candidateLoop_first_success k ddir env rest j (i + 1)
        ⟨some (ddir ++ "/" ++ v.filename), some v⟩ hj2 hm2 hret2 hfail2 hsucc2
      simp [candidateLoop, hmv, hret0, hst, hwk, IH, attemptsTrace_cons]
    · have IH := candidateLoop_first_success k ddir env rest j (i + 1)
        ⟨st.dl, some v⟩ hj2 hm2 hret2 hfail2 hsucc2
      simp [candidateLoop, hmv, hret0, hst, IH, attemptsTrace_cons]

/-- The candidate loop when every attempt returns but fails (non-200
status, or 200 with a failed streamed write): the loop is exhausted
without a break and the trace is exactly the attempts on all
candidates. -/
theorem candidateLoop_all_fail (k ddir : String) (env : Nat → AttemptEnv) :
    ∀ (cs : List Candidate) (i : Nat) (st : LoopState),
      (∀ c ∈ cs, methodOk c = true) →
      (∀ m, m < cs.length → (env (i + m)).raises = false) →
      (∀ m, m < cs.length → attemptSucceeds (env (i + m)) = false) →
      ∃ st2, candidateLoop k ddir env cs i st =
        .ok (st2, attemptsTrace k ddir env cs i, none)
  | [], i, st, _, _, _ => ⟨st, rfl⟩
  | v :: rest, i, st, hm, hret, hfail => by
    have hmv : methodOk v = true := hm v (List.mem_cons_self v rest)
    have hm2 : ∀ c ∈ rest, methodOk c = true :=
      fun c hc => hm c (List.mem_cons_of_mem v hc)
    have hret2 : ∀ m, m < rest.length → (env (i + 1 + m)).raises = false := by
      intro m hmlt
      have h := hret (m + 1) (by simp; omega)
      have harith : i + (m + 1) = i + 1 + m := by omega
      rwa [harith] at h
    have hfail2 : ∀ m, m < rest.length → attemptSucceeds (env (i + 1 + m)) = false := by
      intro m hmlt
      have h := hfail (m + 1) (by simp; omega)
      have harith : i + (m + 1) = i + 1 + m := by omega
      rwa [harith] at h
    have hret0 : (env i).raises = false := by
      have h := hret 0 (by simp)
      simpa using h
    have hfail0 : attemptSucceeds (env i) = false := by
      have h := hfail 0 (by simp)
      simpa using h
    by_cases hst : (env i).status = 200
    · have hwk : (env i).writeOk = false := by
        simp [attemptSucceeds, hret0, hst] at hfail0
        exact hfail0
      obtain ⟨st2, h2⟩ := candidateLoop_all_fail k ddir env rest (i + 1)
        ⟨some (ddir ++ "/" ++ v.filename), some v⟩ hm2 hret2 hfail2
      exact ⟨st2, by simp [candidateLoop, hmv, hret0, hst, hwk, h2, attemptsTrace_cons]⟩
    · obtain ⟨st2, h2⟩ := candidateLoop_all_fail k ddir env rest (i + 1)
        ⟨st.dl, some v⟩ hm2 hret2 hfail2
      exact ⟨st2, by simp [candidateLoop, hmv, hret0, hst, h2, attemptsTrace_cons]⟩

/-- The candidate loop never raises when every candidate's method is
supported and every request call returns; `download_destination` is
bound afterwards if it was bound at entry or some attempt of this task
returned HTTP 200; the final loop variable is some candidate of the list
whenever that list is nonempty; and the trace never contains an
extraction-pipeline event. -/
theorem candidateLoop_total (k ddir : String) (env : Nat → AttemptEnv) :
    ∀ (cs : List Candidate) (i : Nat) (st : LoopState),
      (∀ c ∈ cs, methodOk c = true) →
      (∀ m, m < cs.length → (env (i + m)).raises = false) →
      ∃ st2 evs r, candidateLoop k ddir env cs i st = .ok (st2, evs, r) ∧
        ((st.dl.isSome = true ∨ ∃ m, m < cs.length ∧ (env (i + m)).status = 200) →
          st2.dl.isSome = true) ∧
        (cs = [] → st2 = st) ∧
        (cs ≠ [] → ∃ v, st2.lastV = some v ∧ v ∈ cs) ∧
        extractionEntered evs = false
  | [], i, st, _, _ => by
    refine ⟨st, [], none, rfl, ?_, fun _ => rfl, fun h => absurd rfl h, rfl⟩
    rintro (h1 | ⟨m, hmlt, _⟩)
    · exact h1
    · exact absurd hmlt (Nat.not_lt_zero m)
  | v :: rest, i, st, hm, hret => by
    have hmv : methodOk v = true := hm v (List.mem_cons_self v rest)
    have hm2 : ∀ c ∈ rest, methodOk c = true :=
      fun c hc => hm c (List.mem_cons_of_mem v hc)
    have hret0 : (env i).raises = false := by
      have h := hret 0 (by simp)
      simpa using h
    have hret2 : ∀ m, m < rest.length → (env (i + 1 + m)).raises = false := by
      intro m hmlt
      have h := hret (m + 1) (by simp; omega)
      have harith : i + (m + 1) = i + 1 + m := by omega
      rwa [harith] at h
    by_cases hst : (env i).status = 200
    · by_cases hwk : (env i).writeOk = true
      · exact ⟨⟨some (ddir ++ "/" ++ v.filename), some v⟩, attemptEvs k ddir v (env i),
          some (ddir ++ "/" ++ v.filename),
          by simp [candidateLoop, hmv, hret0, hst, hwk], fun _ => rfl,
          fun h => absurd h (by simp),
          fun _ => ⟨v, rfl, List.mem_cons_self v rest⟩,
          attemptEvs_no_extraction k ddir v (env i)⟩
      · obtain ⟨st2, evs, r, heq, hdl, hnil, hlast, hext⟩ :=
          candidateLoop_total k ddir env rest (i + 1)
            ⟨some (ddir ++ "/" ++ v.filename), some v⟩ hm2 hret2
        refine ⟨st2, attemptEvs k ddir v (env i) ++ evs, r, ?_,
          fun _ => hdl (Or.inl rfl), fun h => absurd h (by simp), ?_, ?_⟩
        · simp [candidateLoop, hmv, hret0, hst, hwk, heq]
        · intro _
          by_cases hre : rest = []
          · subst hre
            exact ⟨v, by rw [hnil rfl], List.mem_cons_self v []⟩
          · obtain ⟨w, hw, hwm⟩ := hlast hre
            exact ⟨w, hw, List.mem_cons_of_mem v hwm⟩
        · rw [extractionEntered_append, attemptEvs_no_extraction, hext]
          rfl
    · obtain ⟨st2, evs, r, heq, hdl, hnil, hlast, hext⟩ :=
        candidateLoop_total k ddir env rest (i + 1) ⟨st.dl, some v⟩ hm2 hret2
      refine ⟨st2, attemptEvs k ddir v (env i) ++ evs, r, ?_, ?_,
        fun h => absurd h (by simp), ?_, ?_⟩
      · simp [candidateLoop, hmv, hret0, hst, heq]
      · rintro (h1 | ⟨m, hmlt, hsm⟩)
        · exact hdl (Or.inl h1)
        · cases m with
          | zero => exact absurd (by simpa using hsm) hst
          | succ m2 =>
            refine hdl (Or.inr ⟨m2, Nat.lt_of_succ_lt_succ hmlt, ?_⟩)
            have harith : i + (m2 + 1) = i + 1 + m2 := by omega
            rwa [harith] at hsm
      · intro _
        by_cases hre : rest = []
        · subst hre
          exact ⟨v, by rw [hnil rfl], List.mem_cons_self v []⟩
        · obtain ⟨w, hw, hwm⟩ := hlast hre
          exact ⟨w, hw, List.mem_cons_of_mem v hwm⟩
      · rw [extractionEntered_append, attemptEvs_no_extraction, hext]
        rfl

/-- The extraction block never raises when `download_destination` is
bound and the member extraction does not hit the uncaught missing-member
KeyError, and its trace shows the extraction pipeline entered exactly
when the candidate is flagged `extract_zip`. -/
theorem extractionStep_spec (k ddir : String) (x : ExtractEnv) (v : Candidate)
    (d : String) (hkey : x.extractResult ≠ ZipExtractResult.keyError) :
    ∃ evs, extractionStep k ddir x v (some d) = .ok evs ∧
      extractionEntered evs = v.extract_zip := by
  cases hz : v.extract_zip with
  | false => exact ⟨[], by simp [extractionStep, hz], by simp [extractionEntered]⟩
  | true =>
    cases hzf : x.is_zipfile d with
    | false =>
      exact ⟨[Ev.log (.notValidZip k)], by simp [extractionStep, hz, hzf],
        by simp [extractionEntered, isExtractionEv]⟩
    | true =>
      cases hxr : x.extractResult with
      | keyError => exact absurd hxr hkey
      | ok =>
        simp only [extractionStep, hz, hzf, hxr, if_true]
        refine ⟨_, rfl, ?_⟩
        simp [extractionEntered, isExtractionEv]
      | caughtError =>
        simp only [extractionStep, hz, hzf, hxr, if_true]
        refine ⟨_, rfl, ?_⟩
        simp [extractionEntered, isExtractionEv]

/-- The uncaught-KeyError abort path: extracting a member absent from a
valid archive raises out of the run (app.py line 169; the except clause
at line 177 catches only BadZipFile and IOError). -/
theorem extractionStep_keyError (k ddir : String) (x : ExtractEnv) (v : Candidate)
    (d : String) (hz : v.extract_zip = true) (hzf : x.is_zipfile d = true)
    (hkey : x.extractResult = ZipExtractResult.keyError) :
    extractionStep k ddir x v (some d) =
      .error (.keyErrorMissingMember v.zip_member_to_extract) := by
  simp [extractionStep, hz, hzf, hkey]

/-- The uncaught-RequestException abort path: a request call that raises
(app.py lines 124-134, outside any try) aborts the run. -/
theorem candidateLoop_requestError (k ddir : String) (env : Nat → AttemptEnv)
    (v : Candidate) (rest : List Candidate) (i : Nat) (st : LoopState)
    (hmv : methodOk v = true) (hr : (env i).raises = true) :
    candidateLoop k ddir env (v :: rest) i st =
      .error (.requestExceptionUncaught v.url) := by
  simp [candidateLoop, hmv, hr]

theorem attemptsTrace_noIter (k ddir : String) (env : Nat → AttemptEnv) (k2 : String) :
    ∀ (cs : List Candidate) (i : Nat),
      Ev.log (.noIterationSucceeded k2) ∉ attemptsTrace k ddir env cs i
  | [], i => by simp [attemptsTrace_nil]
  | v :: rest, i => by
    rw [attemptsTrace_cons]
    simp only [List.mem_append]
    rintro (h | h)
    · exact attemptEvs_noIter k ddir v (env i) k2 h
    · exact attemptsTrace_noIter k ddir env k2 rest (i + 1) h

/-- C1 (amended): for every task whose candidate list contains at least
one candidate whose attempt returns HTTP 200 *and whose streamed write
succeeds*, with the preceding request calls returning, the fallback
resolution returns Success with the local path of the first such
candidate in list order, and no candidate after it is attempted: the
trace is exactly the attempts on the candidates up to and including that
one.  (The claim's original form, which asks only for HTTP 200, is
refuted by `C1_counterexample`: a 200 response whose streamed write
fails is caught at app.py lines 148-149 and the loop continues.) -/
theorem C1_first_success (k ddir : String) (env : Nat → AttemptEnv)
    (st : LoopState) (cs : List Candidate) (j : Nat) (hj : j < cs.length)
    (hm : ∀ c ∈ cs, methodOk c = true)
    (hret : ∀ m, m < j → (env m).raises = false)
    (hfail : ∀ m, m < j → attemptSucceeds (env m) = false)
    (hsucc : attemptSucceeds (env j) = true) :
    resolve k ddir env st cs =
      .ok (.success (ddir ++ "/" ++ (cs.get ⟨j, hj⟩).filename),
           ⟨some (ddir ++ "/" ++ (cs.get ⟨j, hj⟩).filename), some (cs.get ⟨j, hj⟩)⟩,
           attemptsTrace k ddir env (cs.take (j + 1)) 0) := by
  have h := candidateLoop_first_success k ddir env cs j 0 st hj hm
    (fun m hmlt => by simpa using hret m hmlt)
    (fun m hmlt => by simpa using hfail m hmlt)
    (by simpa using hsucc)
  simp [resolve, h]

/-- Witness for C1: a one-candidate task whose attempt fully succeeds
resolves to that candidate's path. -/
theorem C1_first_success_witness :
    (∀ c ∈ [cexA], methodOk c = true) ∧
    (∀ m, m < 0 → (envAllOk m).raises = false) ∧
    attemptSucceeds (envAllOk 0) = true ∧
    resolve "t" "dl" envAllOk initState [cexA] =
      .ok (.success ("dl" ++ "/" ++ cexA.filename),
           ⟨some ("dl" ++ "/" ++ cexA.filename), some cexA⟩,
           attemptsTrace "t" "dl" envAllOk ([cexA].take (0 + 1)) 0) :=
  ⟨by decide, fun m hmlt => absurd hmlt (Nat.not_lt_zero m), by decide,
   C1_first_success "t" "dl" envAllOk initState [cexA] 0 (by decide)
     (by decide) (fun m hmlt => absurd hmlt (Nat.not_lt_zero m))
     (fun m hmlt => absurd hmlt (Nat.not_lt_zero m)) (by decide)⟩

/-- Counterexample to C1 as stated: candidate `cexA` (list position 0) is
the first candidate returning HTTP 200, but its streamed write fails, so
the resolution is Success with the path of `cexB` (position 1), not with
`cexA`'s path `dl/a.zip`, and `cexB` — a candidate after the first
200-candidate — is attempted (its debug log is in the trace). -/
theorem C1_counterexample :
    (envFirstWriteFails 0).status = 200 ∧
    cexA.filename = "a.zip" ∧ cexB.filename = "b.zip" ∧
    resolve "t" "dl" envFirstWriteFails initState [cexA, cexB] =
      .ok (.success "dl/b.zip", ⟨some "dl/b.zip", some cexB⟩,
        attemptEvs "t" "dl" cexA ⟨200, false, false⟩ ++
          attemptEvs "t" "dl" cexB ⟨200, true, false⟩) ∧
    "dl/b.zip" ≠ "dl/a.zip" ∧
    Ev.log (.fullInstructions cexB) ∈
      attemptEvs "t" "dl" cexA ⟨200, false, false⟩ ++
        attemptEvs "t" "dl" cexB ⟨200, true, false⟩ := by
  decide

/-- C2 (amended): provided `download_destination` is bound — it was
bound at task entry (an earlier task reached HTTP 200) or some attempt
of the current task returns HTTP 200 — a task with supported methods, a
nonempty candidate list, returning request calls and no missing-member
KeyError completes without raising, and its trace enters the extraction
pipeline if and only if `extract_zip` is true on the last-attempted
candidate — independently of whether the resolution was Success or
Failure (the oracle `env` is arbitrary).  The missing-file guard is
`zipfile.is_zipfile`, which returns false rather than raising.  Without
the boundness proviso the claim fails: see `C2_counterexample`. -/
theorem C2_extraction_iff (k ddir : String) (env : Nat → AttemptEnv)
    (x : ExtractEnv) (st : LoopState) (cs : List Candidate)
    (hdl : st.dl.isSome = true ∨ ∃ m, m < cs.length ∧ (env m).status = 200)
    (hne : cs ≠ [])
    (hm : ∀ c ∈ cs, methodOk c = true)
    (hret : ∀ m, m < cs.length → (env m).raises = false)
    (hkey : x.extractResult ≠ ZipExtractResult.keyError) :
    ∃ out st2 evs v, runTask k ddir env x st cs = .ok (out, st2, evs) ∧
      st2.lastV = some v ∧ extractionEntered evs = v.extract_zip := by
  obtain ⟨st2, evs, r, heq, hdl2, _, hlast, hext⟩ :=
    candidateLoop_total k ddir env cs 0 st hm
      (fun m hmlt => by simpa using hret m hmlt)
  obtain ⟨v, hv, _⟩ := hlast hne
  have hdl3 : st2.dl.isSome = true := by
    refine hdl2 ?_
    rcases hdl with h1 | ⟨m, hmlt, hsm⟩
    · exact Or.inl h1
    · exact Or.inr ⟨m, hmlt, by simpa using hsm⟩
  obtain ⟨d, hd⟩ := Option.isSome_iff_exists.mp hdl3
  obtain ⟨evs2, hx, hx2⟩ := extractionStep_spec k ddir x v d hkey
  cases r with
  | some dest =>
    refine ⟨.success dest, st2, evs ++ evs2, v, ?_, hv, ?_⟩
    · simp [runTask, resolve, heq, hv, hd, hx]
    · rw [extractionEntered_append, hext, hx2]
      simp
  | none =>
    refine ⟨.failure, st2, (evs ++ [Ev.log (.noIterationSucceeded k)]) ++ evs2, v,
      ?_, hv, ?_⟩
    · simp [runTask, resolve, heq, hv, hd, hx]
    · rw [extractionEntered_append, extractionEntered_append, hext, hx2]
      simp [extractionEntered, isExtractionEv]

/-- Witness for C2: the first task of a run (nothing bound at entry)
whose only candidate is flagged for extraction and downloads
successfully; the current-task HTTP 200 binds `download_destination` and
the extraction pipeline is entered. -/
theorem C2_extraction_iff_witness :
    (initState.dl.isSome = true ∨
      ∃ m, m < ([cexC] : List Candidate).length ∧ (envAllOk m).status = 200) ∧
    ([cexC] ≠ []) ∧ (∀ c ∈ [cexC], methodOk c = true) ∧
    (∀ m, m < ([cexC] : List Candidate).length → (envAllOk m).raises = false) ∧
    (xenvAll.extractResult ≠ ZipExtractResult.keyError) ∧
    (∃ out st2 evs v,
      runTask "t" "dl" envAllOk xenvAll initState [cexC] = .ok (out, st2, evs) ∧
      st2.lastV = some v ∧ extractionEntered evs = v.extract_zip) :=
  ⟨Or.inr ⟨0, by decide, rfl⟩, by decide, by decide, by decide, by decide,
   C2_extraction_iff "t" "dl" envAllOk xenvAll initState [cexC]
     (Or.inr ⟨0, by decide, rfl⟩) (by decide) (by decide) (by decide) (by decide)⟩

/-- Counterexample to C2 as stated: the first task of a run has
`extract_zip` true on its only candidate, which returns HTTP 500; no
download was ever started, `download_destination` was never assigned, and
reading it on app.py line 159 raises NameError, aborting the run —
extraction is neither attempted nor guarded, although `extract_zip` is
true on the resolved candidate. -/
theorem C2_counterexample :
    cexC.extract_zip = true ∧
    runAll "dl" (fun _ _ => ⟨500, true, false⟩) (fun _ => xenvNone)
      [("t", .list [cexC])] initState =
      .error (.nameErrorUnbound "download_destination") := by
  decide

/-- C4: for every task all of whose candidate attempts return but fail
(non-200 status, or HTTP 200 with a failed streamed write), the
resolution is Failure and the for/else clause logs the "no iteration
succeeded" error exactly once for that task. -/
theorem C4_exhausted_failure (k ddir : String) (env : Nat → AttemptEnv)
    (st : LoopState) (cs : List Candidate)
    (hm : ∀ c ∈ cs, methodOk c = true)
    (hret : ∀ m, m < cs.length → (env m).raises = false)
    (hfail : ∀ m, m < cs.length → attemptSucceeds (env m) = false) :
    ∃ st2, resolve k ddir env st cs =
      .ok (.failure, st2,
        attemptsTrace k ddir env cs 0 ++ [Ev.log (.noIterationSucceeded k)]) ∧
      (attemptsTrace k ddir env cs 0 ++ [Ev.log (.noIterationSucceeded k)]).count
        (Ev.log (.noIterationSucceeded k)) = 1 := by
  obtain ⟨st2, h2⟩ := candidateLoop_all_fail k ddir env cs 0 st hm
    (fun m hmlt => by simpa using hret m hmlt)
    (fun m hmlt => by simpa using hfail m hmlt)
  refine ⟨st2, by simp [resolve, h2], ?_⟩
  rw [List.count_append,
    List.count_eq_zero.mpr (attemptsTrace_noIter k ddir env k cs 0)]
  simp

/-- Witness for C4: a two-candidate task where both attempts return
HTTP 500. -/
theorem C4_exhausted_failure_witness :
    (∀ c ∈ [cexA, cexB], methodOk c = true) ∧
    (∀ m, m < ([cexA, cexB] : List Candidate).length →
      (envAll500 m).raises = false) ∧
    (∀ m, m < ([cexA, cexB] : List Candidate).length →
      attemptSucceeds (envAll500 m) = false) ∧
    (∃ st2, resolve "t" "dl" envAll500 initState [cexA, cexB] =
      .ok (.failure, st2,
        attemptsTrace "t" "dl" envAll500 [cexA, cexB] 0 ++
          [Ev.log (.noIterationSucceeded "t")]) ∧
      (attemptsTrace "t" "dl" envAll500 [cexA, cexB] 0 ++
        [Ev.log (.noIterationSucceeded "t")]).count
          (Ev.log (.noIterationSucceeded "t")) = 1) :=
  ⟨by decide, by decide, by decide,
   C4_exhausted_failure "t" "dl" envAll500 initState [cexA, cexB]
     (by decide) (by decide) (by decide)⟩

/-- C5: a candidate attempt with a supported method whose request
returns a response with status not exactly 200 is a candidate-level
failure: no exception is raised by that candidate (the loop's result is
exactly the remaining loop's result with this attempt's events prefixed,
so an error can only come from a later candidate), a warning is logged
for it, and the loop proceeds to the next candidate of the same task. -/
theorem C5_non200_continue (k ddir : String) (env : Nat → AttemptEnv)
    (v : Candidate) (rest : List Candidate) (i : Nat) (st : LoopState)
    (hmv : methodOk v = true) (hr : (env i).raises = false)
    (hs : (env i).status ≠ 200) :
    candidateLoop k ddir env (v :: rest) i st =
      (candidateLoop k ddir env rest (i + 1) ⟨st.dl, some v⟩).map
        (fun p => (p.1, attemptEvs k ddir v (env i) ++ p.2.1, p.2.2)) ∧
    Ev.log (.downloadNotStarted k v.method) ∈ attemptEvs k ddir v (env i) := by
  constructor
  · cases h : candidateLoop k ddir env rest (i + 1) ⟨st.dl, some v⟩ with
    | error e => simp [candidateLoop, hmv, hr, hs, h, Except.map]
    | ok p =>
      obtain ⟨st2, tl, r⟩ := p
      simp [candidateLoop, hmv, hr, hs, h, Except.map]
  · simp [attemptEvs, hs]

/-- Witness for C5: a 500-response on the single candidate of a task. -/
theorem C5_non200_continue_witness :
    methodOk cexA = true ∧ (envAll500 0).raises = false ∧
    (envAll500 0).status ≠ 200 ∧
    (candidateLoop "t" "dl" envAll500 [cexA] 0 initState =
      (candidateLoop "t" "dl" envAll500 [] (0 + 1) ⟨initState.dl, some cexA⟩).map
        (fun p => (p.1, attemptEvs "t" "dl" cexA (envAll500 0) ++ p.2.1, p.2.2)) ∧
     Ev.log (.downloadNotStarted "t" cexA.method) ∈
       attemptEvs "t" "dl" cexA (envAll500 0)) :=
  ⟨by decide, by decide, by decide,
   C5_non200_continue "t" "dl" envAll500 cexA [] 0 initState (by decide)
     (by decide) (by decide)⟩

/-- C6: the method string is normalized by `upper()` then `strip()`
(case-insensitive, surrounding whitespace trimmed — see `methodOk` and
the concrete conjuncts); any candidate whose normalized method is neither
"GET" nor "POST" makes the whole candidate loop of its task return the
uncaught ValueError immediately, whatever candidates follow. -/
theorem C6_unsupported_method (k ddir : String) (env : Nat → AttemptEnv)
    (v : Candidate) (rest : List Candidate) (i : Nat) (st : LoopState)
    (h : methodOk v = false) :
    candidateLoop k ddir env (v :: rest) i st =
      .error (.valueErrorUnsupportedMethod v.method) ∧
    pyStrip (pyUpper "  gEt ") = "GET" ∧ pyStrip (pyUpper " pOsT  ") = "POST" :=
  ⟨by simp [candidateLoop, h], by decide, by decide⟩

/-- Witness for C6: the method "put" aborts the loop even with further
candidates pending. -/
theorem C6_unsupported_method_witness :
    methodOk cexP = false ∧
    (candidateLoop "t" "dl" envAllOk [cexP, cexA] 0 initState =
      .error (.valueErrorUnsupportedMethod cexP.method) ∧
     pyStrip (pyUpper "  gEt ") = "GET" ∧ pyStrip (pyUpper " pOsT  ") = "POST") :=
  ⟨by decide,
   C6_unsupported_method "t" "dl" envAllOk cexP [cexA] 0 initState (by decide)⟩

/-- C7: whenever extraction is attempted (and does not abort on the
missing-member KeyError), the member is extracted into the download
directory joined with the candidate's filename truncated at the first
'.' (`split('.')[0]`); in particular for filename "data.v2.zip" the
directory component is "data", not "data.v2". -/
theorem C7_extraction_directory (k ddir : String) (x : ExtractEnv) (v : Candidate)
    (d : String) (hz : v.extract_zip = true) (hzf : x.is_zipfile d = true)
    (hkey : x.extractResult ≠ ZipExtractResult.keyError) :
    (∃ evs, extractionStep k ddir x v (some d) = .ok evs ∧
      Ev.fs (.zipExtract d v.zip_member_to_extract
        (ddir ++ "/" ++ stemFirstDot v.filename)) ∈ evs) ∧
    stemFirstDot "data.v2.zip" = "data" ∧ stemFirstDot "data.v2.zip" ≠ "data.v2" := by
  refine ⟨?_, by decide, by decide⟩
  cases hxr : x.extractResult with
  | keyError => exact absurd hxr hkey
  | ok =>
    simp only [extractionStep, hz, hzf, hxr, if_true]
    refine ⟨_, rfl, ?_⟩
    simp [zipContentsDir]
  | caughtError =>
    simp only [extractionStep, hz, hzf, hxr, if_true]
    refine ⟨_, rfl, ?_⟩
    simp [zipContentsDir]

/-- Witness for C7: a concrete extraction of `m.txt` from `dl/c.zip`. -/
theorem C7_extraction_directory_witness :
    cexC.extract_zip = true ∧ xenvAll.is_zipfile "dl/c.zip" = true ∧
    (xenvAll.extractResult ≠ ZipExtractResult.keyError) ∧
    ((∃ evs, extractionStep "t" "dl" xenvAll cexC (some "dl/c.zip") = .ok evs ∧
      Ev.fs (.zipExtract "dl/c.zip" cexC.zip_member_to_extract
        ("dl" ++ "/" ++ stemFirstDot cexC.filename)) ∈ evs) ∧
     stemFirstDot "data.v2.zip" = "data" ∧ stemFirstDot "data.v2.zip" ≠ "data.v2") :=
  ⟨rfl, rfl, by decide,
   C7_extraction_directory "t" "dl" xenvAll cexC "dl/c.zip" rfl rfl (by decide)⟩

/-- C8: when the final destination already exists (and the extraction
does not abort on the missing-member KeyError), the extraction block
logs the existence warning and still performs the copy (`shutil.copy2`,
which overwrites) — warn-then-overwrite, never skip — and the whole block
returns normally, so a second extraction against the same existing final
destination does not crash. -/
theorem C8_warn_then_overwrite (k ddir : String) (x : ExtractEnv) (v : Candidate)
    (d : String) (hz : v.extract_zip = true) (hzf : x.is_zipfile d = true)
    (he : x.pathExists v.zip_member_final_destination = true)
    (hkey : x.extractResult ≠ ZipExtractResult.keyError) :
    ∃ evs, extractionStep k ddir x v (some d) = .ok evs ∧
      Ev.log (.finalDestExistsWarning v.zip_member_final_destination
        v.zip_member_to_extract) ∈ evs ∧
      Ev.fs (.copyFile (zipContentsDir ddir v.filename ++ "/" ++ v.zip_member_to_extract)
        v.zip_member_final_destination) ∈ evs := by
  cases hxr : x.extractResult with
  | keyError => exact absurd hxr hkey
  | ok =>
    simp only [extractionStep, hz, hzf, he, hxr, if_true]
    refine ⟨_, rfl, ?_, ?_⟩ <;> simp
  | caughtError =>
    simp only [extractionStep, hz, hzf, he, hxr, if_true]
    refine ⟨_, rfl, ?_, ?_⟩ <;> simp

/-- Witness for C8: extraction of `cexC` with the final destination
already present. -/
theorem C8_warn_then_overwrite_witness :
    cexC.extract_zip = true ∧ xenvAll.is_zipfile "dl/c.zip" = true ∧
    xenvAll.pathExists cexC.zip_member_final_destination = true ∧
    (xenvAll.extractResult ≠ ZipExtractResult.keyError) ∧
    (∃ evs, extractionStep "t" "dl" xenvAll cexC (some "dl/c.zip") = .ok evs ∧
      Ev.log (.finalDestExistsWarning cexC.zip_member_final_destination
        cexC.zip_member_to_extract) ∈ evs ∧
      Ev.fs (.copyFile (zipContentsDir "dl" cexC.filename ++ "/" ++
        cexC.zip_member_to_extract) cexC.zip_member_final_destination) ∈ evs) :=
  ⟨rfl, rfl, rfl, by decide,
   C8_warn_then_overwrite "t" "dl" xenvAll cexC "dl/c.zip" rfl rfl rfl (by decide)⟩

/-- C9: a bare candidate dictionary as a task's configured value is
normalized to the one-element list containing it, so both produce
identical behavior. -/
theorem C9_single_dict_normalization (k ddir : String) (env : Nat → AttemptEnv)
    (x : ExtractEnv) (st : LoopState) (c : Candidate) :
    runTaskValue k ddir env x st (.single c) =
      runTaskValue k ddir env x st (.list [c]) := rfl

/-- C10: when the downloaded file is a valid zip but the member
extraction fails with an exception the source catches (BadZipFile or
IOError, caught at app.py lines 177-181), the subsequent copy block
still runs: the copy to the final destination is attempted
unconditionally. -/
theorem C10_copy_despite_extract_failure (k ddir : String) (x : ExtractEnv)
    (v : Candidate) (d : String) (hz : v.extract_zip = true)
    (hzf : x.is_zipfile d = true)
    (hx : x.extractResult = ZipExtractResult.caughtError) :
    ∃ evs, extractionStep k ddir x v (some d) = .ok evs ∧
      Ev.log (.extractFailed v.zip_member_to_extract k) ∈ evs ∧
      Ev.fs (.copyFile (zipContentsDir ddir v.filename ++ "/" ++ v.zip_member_to_extract)
        v.zip_member_final_destination) ∈ evs := by
  simp only [extractionStep, hz, hzf, hx, if_true]
  refine ⟨_, rfl, ?_, ?_⟩ <;> simp

/-- Witness for C10: extraction failure on `cexC` with the copy still
attempted. -/
theorem C10_copy_despite_extract_failure_witness :
    cexC.extract_zip = true ∧
    (ExtractEnv.mk (fun _ => true) (fun _ => false) .caughtError true).is_zipfile
      "dl/c.zip" = true ∧
    (ExtractEnv.mk (fun _ => true) (fun _ => false) .caughtError true).extractResult =
      ZipExtractResult.caughtError ∧
    (∃ evs, extractionStep "t" "dl"
        (ExtractEnv.mk (fun _ => true) (fun _ => false) .caughtError true) cexC
        (some "dl/c.zip") = .ok evs ∧
      Ev.log (.extractFailed cexC.zip_member_to_extract "t") ∈ evs ∧
      Ev.fs (.copyFile (zipContentsDir "dl" cexC.filename ++ "/" ++
        cexC.zip_member_to_extract) cexC.zip_member_final_destination) ∈ evs) :=
  ⟨rfl, rfl, rfl,
   C10_copy_despite_extract_failure "t" "dl"
     (ExtractEnv.mk (fun _ => true) (fun _ => false) .caughtError true) cexC "dl/c.zip"
     rfl rfl rfl⟩

end FileDownload
